import Mathlib

/-!
# go-rest-demo: the recipe handlers of the three front-ends

A shallow embedding of `cmd/standardlib/main.go`, `cmd/gin/main.go`,
`cmd/gorilla/main.go` and `pkg/recipes/models.go`.

* The store is the interface `recipeStore`; it is kept abstract (a record of
  state-passing functions over an arbitrary state type) and every call made
  through it is appended to a call log.
* `http.ResponseWriter` and `gin.Context` are modelled by the part of their
  behaviour the handlers rely on: the first status written is the status of
  the response, and every body written is appended.
* The JSON decoder, `slug.Make` and `json.Marshal` are collaborators outside
  the repository and are taken as parameters (`Env`).
* The two regular expressions of the standard-library dispatcher are values
  of `Regexp`, matched by the derivative matcher of `RegularExpression`.
-/

set_option autoImplicit false

/-! ## pkg/recipes -/

namespace recipes

/-- Ingredient of `models.go`. -/
structure Ingredient where
  Name : String
deriving DecidableEq, Repr

/-- Recipe of `models.go`. -/
structure Recipe where
  Name : String
  Ingredients : List Ingredient
deriving DecidableEq, Repr

/-- Modelled from the spec: the sentinel `recipes.NotFoundErr` is declared next to
the in-memory store, whose file is not among the sources; the spec names it as
the store's `NotFound` error, distinct from "any other Store error". A Go
`error` value is therefore either that sentinel or some other error carrying
its message. -/
inductive Error where
  | NotFoundErr
  | Other (msg : String)
deriving DecidableEq, Repr

end recipes

open recipes

/-! ## HTTP constants (net/http) -/

def MethodGet : String := "GET"
def MethodPost : String := "POST"
def MethodPut : String := "PUT"
def MethodDelete : String := "DELETE"

def StatusOK : Nat := 200
def StatusCreated : Nat := 201
def StatusBadRequest : Nat := 400
def StatusNotFound : Nat := 404
def StatusInternalServerError : Nat := 500

/-! ## The store interface and the call log -/

/-- The type `map[string]recipes.Recipe`, as the list of its entries. -/
abbrev RecipeMap : Type := List (String × Recipe)

/-- The interface `recipeStore`, identical in the three `main.go` files: five
operations over a store state `σ`. `Get` and `List` return a value together
with an error, as in Go. -/
structure recipeStore (σ : Type) where
  Add : String → Recipe → σ → Option Error × σ
  Get : String → σ → (Recipe × Option Error) × σ
  List : σ → (RecipeMap × Option Error) × σ
  Update : String → Recipe → σ → Option Error × σ
  Remove : String → σ → Option Error × σ

/-- One call made through the `recipeStore` interface. -/
inductive StoreCall where
  | Add (name : String) (recipe : Recipe)
  | Get (name : String)
  | List
  | Update (name : String) (recipe : Recipe)
  | Remove (name : String)
deriving DecidableEq, Repr

/-- What a handler acts on: the store, the log of the store calls made so far,
and the response writer (`http.ResponseWriter` or `*gin.Context`). -/
structure HState (σ ω : Type) where
  store : σ
  calls : List StoreCall
  w : ω

namespace HState

variable {σ ω : Type}

/-- State of a handler when a request arrives: nothing called yet. -/
def init (st : σ) (w : ω) : HState σ ω := { store := st, calls := [], w := w }

/-- Apply a write to the response writer. -/
def respond (f : ω → ω) (s : HState σ ω) : HState σ ω := { s with w := f s.w }

end HState

namespace recipeStore

variable {σ ω : Type}

/-- The call `h.store.Add(name, recipe)`. -/
def callAdd (h : recipeStore σ) (name : String) (recipe : Recipe) (s : HState σ ω) :
    Option Error × HState σ ω :=
  ((h.Add name recipe s.store).1,
    { s with store := (h.Add name recipe s.store).2,
             calls := s.calls ++ [StoreCall.Add name recipe] })

/-- The call `h.store.Get(name)`. -/
def callGet (h : recipeStore σ) (name : String) (s : HState σ ω) :
    (Recipe × Option Error) × HState σ ω :=
  ((h.Get name s.store).1,
    { s with store := (h.Get name s.store).2, calls := s.calls ++ [StoreCall.Get name] })

/-- The call `h.store.List()`. -/
def callList (h : recipeStore σ) (s : HState σ ω) :
    (RecipeMap × Option Error) × HState σ ω :=
  ((h.List s.store).1,
    { s with store := (h.List s.store).2, calls := s.calls ++ [StoreCall.List] })

/-- The call `h.store.Update(name, recipe)`. -/
def callUpdate (h : recipeStore σ) (name : String) (recipe : Recipe) (s : HState σ ω) :
    Option Error × HState σ ω :=
  ((h.Update name recipe s.store).1,
    { s with store := (h.Update name recipe s.store).2,
             calls := s.calls ++ [StoreCall.Update name recipe] })

/-- The call `h.store.Remove(name)`. -/
def callRemove (h : recipeStore σ) (name : String) (s : HState σ ω) :
    Option Error × HState σ ω :=
  ((h.Remove name s.store).1,
    { s with store := (h.Remove name s.store).2,
             calls := s.calls ++ [StoreCall.Remove name] })

end recipeStore

/-! ## Requests and the collaborators outside the repository -/

/-- The part of `*http.Request` (and of `*gin.Context`) the handlers read:
`r.Method`, `r.URL.Path`, `r.Body`, and the route parameters (`mux.Vars(r)`,
`c.Param`). -/
structure Request where
  Method : String
  Path : String
  Body : String
  Vars : String → String

/-- The library functions the handlers call: the JSON decoder
(`json.NewDecoder(r.Body).Decode`, `c.ShouldBindJSON`), `slug.Make`, and
`json.Marshal` at the two types it is used at. -/
structure Env where
  decode : String → Except Error Recipe
  slugMake : String → String
  marshalList : RecipeMap → Except Error String
  marshalRecipe : Recipe → Except Error String

/-! ## http.ResponseWriter -/

/-- The response written so far: the status line, once sent, and the body
chunks in order. -/
structure ResponseWriter where
  status : Option Nat
  body : List String
deriving DecidableEq, Repr

namespace ResponseWriter

/-- A response writer nothing was written to. -/
def fresh : ResponseWriter := { status := none, body := [] }

/-- The method `WriteHeader`: sends the status line, unless one was sent already. -/
def WriteHeader (code : Nat) (w : ResponseWriter) : ResponseWriter :=
  match w.status with
  | some _ => w
  | none => { w with status := some code }

/-- The method `Write`: sends `200` first if no status line was sent, then the bytes. -/
def Write (b : String) (w : ResponseWriter) : ResponseWriter :=
  { status := (w.WriteHeader StatusOK).status, body := w.body ++ [b] }

end ResponseWriter

/-! ## gin.Context -/

/-- The JSON bodies the Gin handlers render. -/
inductive Payload where
  | error (err : Error)
  | success
  | recipes (r : RecipeMap)
  | recipe (r : Recipe)
deriving DecidableEq, Repr

/-- The response side of `*gin.Context`: the status of the response, whether
it was written, and every `c.JSON` rendered, with the code it asked for. -/
structure Context where
  status : Nat
  written : Bool
  rendered : List (Nat × Payload)
deriving DecidableEq, Repr

namespace Context

/-- A context nothing was rendered to; Gin starts from status 200. -/
def fresh : Context := { status := StatusOK, written := false, rendered := [] }

/-- The method `c.JSON(code, obj)`: sets the status unless the header is already
written, then renders the body. -/
def JSON (code : Nat) (obj : Payload) (c : Context) : Context :=
  { status := if c.written then c.status else code,
    written := true,
    rendered := c.rendered ++ [(code, obj)] }

end Context

/-! ## Regular expressions (package regexp) -/

/-- An anchored pattern `^lit tail$`, or `^lit(tail)$` when `capture` is set:
a literal followed by a regular expression that is, or is not, the one capture
group of the pattern. Both patterns of the dispatcher have this shape. -/
structure Regexp where
  lit : List Char
  tail : RegularExpression Char
  capture : Bool

/-- Remove the literal `l` from the front of `s`, if `s` starts with it. -/
def dropLit : List Char → List Char → Option (List Char)
  | [], s => some s
  | _ :: _, [] => none
  | c :: l, d :: s => if c = d then dropLit l s else none

namespace Regexp

/-- The method `MatchString`. -/
def MatchString (re : Regexp) (s : String) : Bool :=
  match dropLit re.lit s.data with
  | some t => re.tail.rmatch t
  | none => false

/-- The method `FindStringSubmatch`: nil without a match, else the whole match
followed by the text of the capture group, if the pattern has one. -/
def FindStringSubmatch (re : Regexp) (s : String) : List String :=
  match dropLit re.lit s.data with
  | some t =>
    if re.tail.rmatch t then (if re.capture then [s, String.mk t] else [s]) else []
  | none => []

end Regexp

/-- One or more repetitions, `r+`. -/
def rePlus (r : RegularExpression Char) : RegularExpression Char := r * r.star

/-- A character class listing its members. -/
def reClass (cs : List Char) : RegularExpression Char :=
  cs.foldr (fun c r => RegularExpression.char c + r) 0

/-- The members of the class `[a-z0-9]`. -/
def lowerAlnum : List Char := "abcdefghijklmnopqrstuvwxyz0123456789".data

/-- The regular expression `[a-z0-9]+`. -/
def reSegment : RegularExpression Char := rePlus (reClass lowerAlnum)

/-! ## cmd/standardlib -/

namespace Standardlib

variable {σ : Type}

/-- The pattern `^/recipes/*$`. -/
def RecipeRe : Regexp :=
  { lit := "/recipes".data,
    tail := (RegularExpression.char '/').star,
    capture := false }

/-- The pattern `^/recipes/([a-z0-9]+(?:-[a-z0-9]+)+)$`. -/
def RecipeReWithID : Regexp :=
  { lit := "/recipes/".data,
    tail := reSegment * rePlus (RegularExpression.char '-' * reSegment),
    capture := true }

/-- The function `InternalServerErrorHandler`. -/
def InternalServerErrorHandler (s : HState σ ResponseWriter) : HState σ ResponseWriter :=
  (s.respond (ResponseWriter.WriteHeader StatusInternalServerError)).respond
    (ResponseWriter.Write "500 Internal Server Error")

/-- The function `NotFoundHandler`. -/
def NotFoundHandler (s : HState σ ResponseWriter) : HState σ ResponseWriter :=
  (s.respond (ResponseWriter.WriteHeader StatusNotFound)).respond
    (ResponseWriter.Write "404 Not Found")

/-- The method `RecipesHandler.CreateRecipe`. -/
def CreateRecipe (env : Env) (h : recipeStore σ) (r : Request)
    (s : HState σ ResponseWriter) : HState σ ResponseWriter :=
  match env.decode r.Body with
  | .error _ => InternalServerErrorHandler s
  | .ok recipe =>
    let resourceID := env.slugMake recipe.Name
    match (h.callAdd resourceID recipe s).1 with
    | some _ => InternalServerErrorHandler (h.callAdd resourceID recipe s).2
    | none => (h.callAdd resourceID recipe s).2.respond (ResponseWriter.WriteHeader StatusOK)

/-- The method `RecipesHandler.ListRecipes`. The error returned by the store is
assigned to `err` and overwritten by the one of `json.Marshal` before it is read. -/
def ListRecipes (env : Env) (h : recipeStore σ) (_r : Request)
    (s : HState σ ResponseWriter) : HState σ ResponseWriter :=
  let resources := (h.callList s).1.1
  match env.marshalList resources with
  | .error _ => InternalServerErrorHandler (h.callList s).2
  | .ok jsonBytes =>
    ((h.callList s).2.respond (ResponseWriter.WriteHeader StatusOK)).respond
      (ResponseWriter.Write jsonBytes)

/-- The method `RecipesHandler.GetRecipe`. -/
def GetRecipe (env : Env) (h : recipeStore σ) (r : Request)
    (s : HState σ ResponseWriter) : HState σ ResponseWriter :=
  match RecipeReWithID.FindStringSubmatch r.Path with
  | _ :: id :: _ =>
    match (h.callGet id s).1 with
    | (_, some err) =>
      if err = Error.NotFoundErr then NotFoundHandler (h.callGet id s).2
      else InternalServerErrorHandler (h.callGet id s).2
    | (recipe, none) =>
      match env.marshalRecipe recipe with
      | .error _ => InternalServerErrorHandler (h.callGet id s).2
      | .ok jsonBytes =>
        ((h.callGet id s).2.respond (ResponseWriter.WriteHeader StatusOK)).respond
          (ResponseWriter.Write jsonBytes)
  | _ => InternalServerErrorHandler s

/-- The method `RecipesHandler.UpdateRecipe`; the id is looked for in the
submatches of `RecipeRe`. -/
def UpdateRecipe (env : Env) (h : recipeStore σ) (r : Request)
    (s : HState σ ResponseWriter) : HState σ ResponseWriter :=
  match RecipeRe.FindStringSubmatch r.Path with
  | _ :: id :: _ =>
    match env.decode r.Body with
    | .error _ => InternalServerErrorHandler s
    | .ok recipe =>
      match (h.callUpdate id recipe s).1 with
      | some err =>
        if err = Error.NotFoundErr then NotFoundHandler (h.callUpdate id recipe s).2
        else InternalServerErrorHandler (h.callUpdate id recipe s).2
      | none => (h.callUpdate id recipe s).2.respond (ResponseWriter.WriteHeader StatusOK)
  | _ => InternalServerErrorHandler s

/-- The method `RecipesHandler.DeleteRecipe`. -/
def DeleteRecipe (h : recipeStore σ) (r : Request)
    (s : HState σ ResponseWriter) : HState σ ResponseWriter :=
  match RecipeReWithID.FindStringSubmatch r.Path with
  | _ :: id :: _ =>
    match (h.callRemove id s).1 with
    | some _ => InternalServerErrorHandler (h.callRemove id s).2
    | none => (h.callRemove id s).2.respond (ResponseWriter.WriteHeader StatusOK)
  | _ => InternalServerErrorHandler s

/-- The method `RecipesHandler.ServeHTTP`: the first case of the switch whose
condition holds is taken; without one, nothing is done. -/
def ServeHTTP (env : Env) (h : recipeStore σ) (r : Request)
    (s : HState σ ResponseWriter) : HState σ ResponseWriter :=
  if r.Method = MethodPost ∧ RecipeRe.MatchString r.Path = true then CreateRecipe env h r s
  else if r.Method = MethodGet ∧ RecipeRe.MatchString r.Path = true then ListRecipes env h r s
  else if r.Method = MethodGet ∧ RecipeReWithID.MatchString r.Path = true then
    GetRecipe env h r s
  else if r.Method = MethodPut ∧ RecipeRe.MatchString r.Path = true then UpdateRecipe env h r s
  else if r.Method = MethodDelete ∧ RecipeRe.MatchString r.Path = true then DeleteRecipe h r s
  else s

end Standardlib

/-! ## cmd/gorilla -/

namespace Gorilla

variable {σ : Type}

/-- The function `InternalServerErrorHandler`. -/
def InternalServerErrorHandler (s : HState σ ResponseWriter) : HState σ ResponseWriter :=
  (s.respond (ResponseWriter.WriteHeader StatusInternalServerError)).respond
    (ResponseWriter.Write "500 Internal server error")

/-- The function `NotFoundHandler`. -/
def NotFoundHandler (s : HState σ ResponseWriter) : HState σ ResponseWriter :=
  (s.respond (ResponseWriter.WriteHeader StatusNotFound)).respond
    (ResponseWriter.Write "404 Not found")

/-- The method `RecipesHandler.CreateRecipe`. -/
def CreateRecipe (env : Env) (h : recipeStore σ) (r : Request)
    (s : HState σ ResponseWriter) : HState σ ResponseWriter :=
  match env.decode r.Body with
  | .error _ => InternalServerErrorHandler s
  | .ok recipe =>
    let resourceID := env.slugMake recipe.Name
    match (h.callAdd resourceID recipe s).1 with
    | some _ => InternalServerErrorHandler (h.callAdd resourceID recipe s).2
    | none =>
      (h.callAdd resourceID recipe s).2.respond (ResponseWriter.WriteHeader StatusCreated)

/-- The method `RecipesHandler.ListRecipes`. The error returned by the store is
assigned to `err` and overwritten by the one of `json.Marshal` before it is read. -/
def ListRecipes (env : Env) (h : recipeStore σ) (_r : Request)
    (s : HState σ ResponseWriter) : HState σ ResponseWriter :=
  let resources := (h.callList s).1.1
  match env.marshalList resources with
  | .error _ => InternalServerErrorHandler (h.callList s).2
  | .ok jsonBytes =>
    ((h.callList s).2.respond (ResponseWriter.WriteHeader StatusOK)).respond
      (ResponseWriter.Write jsonBytes)

/-- The method `RecipesHandler.GetRecipe`. -/
def GetRecipe (env : Env) (h : recipeStore σ) (r : Request)
    (s : HState σ ResponseWriter) : HState σ ResponseWriter :=
  let id := r.Vars "id"
  match (h.callGet id s).1 with
  | (_, some err) =>
    if err = Error.NotFoundErr then NotFoundHandler (h.callGet id s).2
    else InternalServerErrorHandler (h.callGet id s).2
  | (recipe, none) =>
    match env.marshalRecipe recipe with
    | .error _ => InternalServerErrorHandler (h.callGet id s).2
    | .ok jsonBytes =>
      ((h.callGet id s).2.respond (ResponseWriter.WriteHeader StatusOK)).respond
        (ResponseWriter.Write jsonBytes)

/-- The method `RecipesHandler.UpdateRecipe`. -/
def UpdateRecipe (env : Env) (h : recipeStore σ) (r : Request)
    (s : HState σ ResponseWriter) : HState σ ResponseWriter :=
  let id := r.Vars "id"
  match env.decode r.Body with
  | .error _ => InternalServerErrorHandler s
  | .ok recipe =>
    match (h.callUpdate id recipe s).1 with
    | some err =>
      if err = Error.NotFoundErr then NotFoundHandler (h.callUpdate id recipe s).2
      else InternalServerErrorHandler (h.callUpdate id recipe s).2
    | none =>
      match env.marshalRecipe recipe with
      | .error _ => InternalServerErrorHandler (h.callUpdate id recipe s).2
      | .ok jsonBytes =>
        ((h.callUpdate id recipe s).2.respond (ResponseWriter.WriteHeader StatusOK)).respond
          (ResponseWriter.Write jsonBytes)

/-- The method `RecipesHandler.DeleteRecipe`. -/
def DeleteRecipe (h : recipeStore σ) (r : Request)
    (s : HState σ ResponseWriter) : HState σ ResponseWriter :=
  let id := r.Vars "id"
  match (h.callRemove id s).1 with
  | some _ => InternalServerErrorHandler (h.callRemove id s).2
  | none => (h.callRemove id s).2.respond (ResponseWriter.WriteHeader StatusOK)

end Gorilla

/-! ## cmd/gin -/

namespace Gin

variable {σ : Type}

/-- The method `RecipesHandler.CreateRecipe`. The branch of a failed `Add` does
not return. -/
def CreateRecipe (env : Env) (h : recipeStore σ) (r : Request)
    (s : HState σ Context) : HState σ Context :=
  match env.decode r.Body with
  | .error err => s.respond (Context.JSON StatusBadRequest (Payload.error err))
  | .ok recipe =>
    let id := env.slugMake recipe.Name
    let s1 := match (h.callAdd id recipe s).1 with
      | some err =>
        (h.callAdd id recipe s).2.respond
          (Context.JSON StatusInternalServerError (Payload.error err))
      | none => (h.callAdd id recipe s).2
    s1.respond (Context.JSON StatusOK Payload.success)

/-- The method `RecipesHandler.ListRecipes`. The error branch does not return. -/
def ListRecipes (h : recipeStore σ) (_r : Request)
    (s : HState σ Context) : HState σ Context :=
  let r := (h.callList s).1.1
  let s1 := match (h.callList s).1.2 with
    | some err =>
      (h.callList s).2.respond (Context.JSON StatusInternalServerError (Payload.error err))
    | none => (h.callList s).2
  s1.respond (Context.JSON StatusOK (Payload.recipes r))

/-- The method `RecipesHandler.GetRecipe`. Every error of the store is answered
with `http.StatusNotFound`, and the error branch does not return. -/
def GetRecipe (h : recipeStore σ) (r : Request)
    (s : HState σ Context) : HState σ Context :=
  let id := r.Vars "id"
  let recipe := (h.callGet id s).1.1
  let s1 := match (h.callGet id s).1.2 with
    | some err => (h.callGet id s).2.respond (Context.JSON StatusNotFound (Payload.error err))
    | none => (h.callGet id s).2
  s1.respond (Context.JSON StatusOK (Payload.recipe recipe))

/-- The method `RecipesHandler.UpdateRecipe`. -/
def UpdateRecipe (env : Env) (h : recipeStore σ) (r : Request)
    (s : HState σ Context) : HState σ Context :=
  match env.decode r.Body with
  | .error err => s.respond (Context.JSON StatusBadRequest (Payload.error err))
  | .ok recipe =>
    let id := r.Vars "id"
    match (h.callUpdate id recipe s).1 with
    | some err =>
      if err = Error.NotFoundErr then
        (h.callUpdate id recipe s).2.respond (Context.JSON StatusNotFound (Payload.error err))
      else
        (h.callUpdate id recipe s).2.respond
          (Context.JSON StatusInternalServerError (Payload.error err))
    | none => (h.callUpdate id recipe s).2.respond (Context.JSON StatusOK Payload.success)

/-- The method `RecipesHandler.RemoveRecipe`. -/
def RemoveRecipe (h : recipeStore σ) (r : Request)
    (s : HState σ Context) : HState σ Context :=
  let id := r.Vars "id"
  match (h.callRemove id s).1 with
  | some err =>
    if err = Error.NotFoundErr then
      (h.callRemove id s).2.respond (Context.JSON StatusNotFound (Payload.error err))
    else
      (h.callRemove id s).2.respond (Context.JSON StatusInternalServerError (Payload.error err))
  | none => (h.callRemove id s).2.respond (Context.JSON StatusOK Payload.success)

end Gin

/-! ## The id grammar, as the specification words it -/

/-- The segments of a string between its hyphens. -/
def splitOnHyphen : List Char → List (List Char)
  | [] => [[]]
  | c :: cs =>
    if c = '-' then [] :: splitOnHyphen cs
    else
      match splitOnHyphen cs with
      | [] => [[c]]
      | seg :: segs => (c :: seg) :: segs

/-- A first segment `u` and the segments `L` after it, joined by single hyphens. -/
def joinHyphen (u : List Char) (L : List (List Char)) : List Char :=
  u ++ (L.map (fun w => '-' :: w)).flatten

/-- A non-empty run of characters of `[a-z0-9]`. -/
def isSegment (seg : List Char) : Bool :=
  !seg.isEmpty && seg.all (fun c => decide (c ∈ lowerAlnum))

/-- The id grammar of the specification: one or more non-empty segments of
characters of `[a-z0-9]`, joined by single hyphens. -/
def idGrammar (s : String) : Bool :=
  (splitOnHyphen s.data).all isSegment

/-- The grammar `RecipeReWithID` recognises: as `idGrammar`, with at least two
segments. -/
def idGrammarHyphenated (s : String) : Bool :=
  idGrammar s && decide (2 ≤ (splitOnHyphen s.data).length)

/-! ## Stores and collaborators used to run the handlers on concrete requests -/

/-- A store double without state: every operation returns the given error
(or succeeds, for `none`); `Get` and `List` return zero values. -/
def constStore (e : Option Error) : recipeStore Unit :=
  { Add := fun _ _ st => (e, st),
    Get := fun _ st => (({ Name := "", Ingredients := [] }, e), st),
    List := fun st => (([], e), st),
    Update := fun _ _ st => (e, st),
    Remove := fun _ st => (e, st) }

/-- A store double that records what `Add` is given, in order, and always
succeeds; the other operations succeed with zero values and leave the record
as it is. -/
def recordingStore : recipeStore RecipeMap :=
  { Add := fun name recipe st => (none, st ++ [(name, recipe)]),
    Get := fun _ st => (({ Name := "", Ingredients := [] }, none), st),
    List := fun st => ((st, none), st),
    Update := fun _ _ st => (none, st),
    Remove := fun _ st => (none, st) }

/-- The recipe of the specification's example request. -/
def tomatoSoup : Recipe :=
  { Name := "Tomato Soup", Ingredients := [{ Name := "tomato" }] }

/-- The JSON text of `tomatoSoup`, the body of the specification's example
request: an object with the fields `name` and `ingredients`. -/
def tomatoSoupBody : String :=
  "\x7b\"name\":\"Tomato Soup\",\"ingredients\":[\x7b\"name\":\"tomato\"\x7d]\x7d"

/-- What `slug.Make` does to one character of a name made of ASCII letters,
digits and single spaces: a space becomes a hyphen, a letter its lower case. -/
def slugChar (c : Char) : Char := if c = ' ' then '-' else c.toLower

/-- Collaborators for concrete runs, restricted to the inputs those runs use.
The decoder accepts the JSON text `tomatoSoupBody` and gives `tomatoSoup`; the
empty body fails with the decoder's end-of-input error, and the only other
body used, `not json`, is no JSON text and fails too. `slugMake` agrees with
`slug.Make` on names made of ASCII letters, digits and single spaces
(`Tomato Soup` gives `tomato-soup`). Marshalling succeeds; the bytes are
placeholders that no run reads. -/
def demoEnv : Env :=
  { decode := fun b =>
      if b = tomatoSoupBody then .ok tomatoSoup
      else if b = "" then .error (Error.Other "EOF")
      else .error (Error.Other "invalid character"),
    slugMake := fun n => String.mk (n.data.map slugChar),
    marshalList := fun _ => .ok "null",
    marshalRecipe := fun _ => .ok "null" }

/-- A request with the given method, path and body, and `id` as its route
parameter. -/
def demoRequest (method path body id : String) : Request :=
  { Method := method, Path := path, Body := body, Vars := fun _ => id }

/-! ## Theorems -/

/-! ### The regular expressions -/

section Regex

open RegularExpression

theorem dropLit_append (l t : List Char) : dropLit l (l ++ t) = some t := by
  induction l with
  | nil => cases t <;> rfl
  | cons c l ih => simp [dropLit, ih]

theorem reClass_rmatch_iff (cs x : List Char) :
    (reClass cs).rmatch x = true ↔ ∃ c ∈ cs, x = [c] := by
  induction cs with
  | nil =>
    have hnil : reClass [] = 0 := rfl
    simp [hnil]
  | cons a cs ih =>
    have hstep : reClass (a :: cs) = char a + reClass cs := rfl
    rw [hstep, add_rmatch_iff, char_rmatch_iff, ih]
    simp

theorem rePlus_rmatch_iff (r : RegularExpression Char) (x : List Char) :
    (rePlus r).rmatch x = true ↔
      ∃ t S, x = t ++ List.flatten S ∧ r.rmatch t = true ∧
        ∀ u ∈ S, u ≠ [] ∧ r.rmatch u = true := by
  unfold rePlus
  rw [mul_rmatch_iff]
  constructor
  · rintro ⟨t, u, hx, ht, hu⟩
    rw [star_rmatch_iff] at hu
    obtain ⟨S, hS, hall⟩ := hu
    exact ⟨t, S, by rw [hx, hS], ht, hall⟩
  · rintro ⟨t, S, hx, ht, hall⟩
    exact ⟨t, S.flatten, hx, ht, (star_rmatch_iff r _).2 ⟨S, rfl, hall⟩⟩

theorem isSegment_iff (x : List Char) :
    isSegment x = true ↔ x ≠ [] ∧ ∀ c ∈ x, c ∈ lowerAlnum := by
  cases x <;> simp [isSegment]

theorem flatten_singletons (S : List (List Char))
    (h : ∀ u ∈ S, ∃ c ∈ lowerAlnum, u = [c]) : ∀ c ∈ S.flatten, c ∈ lowerAlnum := by
  intro c hc
  rw [List.mem_flatten] at hc
  obtain ⟨u, hu, hcu⟩ := hc
  obtain ⟨d, hd, rfl⟩ := h u hu
  simp at hcu
  exact hcu ▸ hd

theorem flatten_map_singleton (x : List Char) :
    (x.map (fun d => [d])).flatten = x := by
  induction x with
  | nil => rfl
  | cons d x ih => simp [ih]

theorem reSegment_rmatch_iff (x : List Char) :
    reSegment.rmatch x = true ↔ isSegment x = true := by
  rw [isSegment_iff]
  unfold reSegment
  rw [rePlus_rmatch_iff]
  constructor
  · rintro ⟨t, S, hx, ht, hall⟩
    rw [reClass_rmatch_iff] at ht
    obtain ⟨c, hc, rfl⟩ := ht
    refine ⟨by simp [hx], ?_⟩
    have hS : ∀ d ∈ S.flatten, d ∈ lowerAlnum :=
      flatten_singletons S (fun u hu => (reClass_rmatch_iff _ _).1 (hall u hu).2)
    intro d hd
    rw [hx] at hd
    simp only [List.singleton_append, List.mem_cons] at hd
    rcases hd with rfl | hd
    · exact hc
    · exact hS d hd
  · rintro ⟨hne, hall⟩
    obtain ⟨c, rest, rfl⟩ := List.exists_cons_of_ne_nil hne
    refine ⟨[c], rest.map (fun d => [d]), ?_, ?_, ?_⟩
    · simp [flatten_map_singleton]
    · exact (reClass_rmatch_iff _ _).2 ⟨c, hall c (by simp), rfl⟩
    · intro u hu
      rw [List.mem_map] at hu
      obtain ⟨d, hd, rfl⟩ := hu
      exact ⟨by simp, (reClass_rmatch_iff _ _).2 ⟨d, hall d (by simp [hd]), rfl⟩⟩

theorem hyphenSegment_rmatch_iff (y : List Char) :
    (char '-' * reSegment).rmatch y = true ↔ ∃ v, y = '-' :: v ∧ isSegment v = true := by
  rw [mul_rmatch_iff]
  constructor
  · rintro ⟨t, u, hy, ht, hu⟩
    rw [char_rmatch_iff] at ht
    exact ⟨u, by simp [hy, ht], (reSegment_rmatch_iff u).1 hu⟩
  · rintro ⟨v, hy, hv⟩
    exact ⟨['-'], v, by simp [hy], (char_rmatch_iff _ _).2 rfl, (reSegment_rmatch_iff v).2 hv⟩

theorem idTail_rmatch_iff (x : List Char) :
    (reSegment * rePlus (char '-' * reSegment)).rmatch x = true ↔
      ∃ u v L, x = joinHyphen u (v :: L) ∧ isSegment u = true ∧ isSegment v = true ∧
        ∀ w ∈ L, isSegment w = true := by
  rw [mul_rmatch_iff]
  constructor
  · rintro ⟨a, b, hx, ha, hb⟩
    rw [rePlus_rmatch_iff] at hb
    obtain ⟨t, S, hb, ht, hS⟩ := hb
    obtain ⟨v, rfl, hv⟩ := (hyphenSegment_rmatch_iff t).1 ht
    have hS2 : ∀ w ∈ S, ∃ v, w = '-' :: v ∧ isSegment v = true :=
      fun w hw => (hyphenSegment_rmatch_iff w).1 (hS w hw).2
    refine ⟨a, v, S.map List.tail, ?_, (reSegment_rmatch_iff a).1 ha, hv, ?_⟩
    · have hmap : (S.map List.tail).map (fun w => '-' :: w) = S := by
        rw [List.map_map]
        conv_rhs => rw [← List.map_id S]
        apply List.map_congr_left
        intro w hw
        obtain ⟨v, rfl, _⟩ := hS2 w hw
        rfl
      simp only [joinHyphen, List.map_cons, List.flatten_cons, hmap]
      rw [hx, hb]
    · intro w hw
      rw [List.mem_map] at hw
      obtain ⟨w0, hw0, rfl⟩ := hw
      obtain ⟨v, rfl, hv⟩ := hS2 w0 hw0
      exact hv
  · rintro ⟨u, v, L, hx, hu, hv, hL⟩
    refine ⟨u, '-' :: v ++ (L.map (fun w => '-' :: w)).flatten, ?_,
      (reSegment_rmatch_iff u).2 hu, ?_⟩
    · simp [hx, joinHyphen]
    · rw [rePlus_rmatch_iff]
      refine ⟨'-' :: v, L.map (fun w => '-' :: w), rfl,
        (hyphenSegment_rmatch_iff _).2 ⟨v, rfl, hv⟩, ?_⟩
      intro w hw
      rw [List.mem_map] at hw
      obtain ⟨w0, hw0, rfl⟩ := hw
      exact ⟨by simp, (hyphenSegment_rmatch_iff _).2 ⟨w0, rfl, hL w0 hw0⟩⟩

theorem splitOnHyphen_joinHyphen (L : List (List Char)) :
    ∀ u : List Char, (∀ c ∈ u, c ≠ '-') → (∀ w ∈ L, ∀ c ∈ w, c ≠ '-') →
      splitOnHyphen (joinHyphen u L) = u :: L := by
  induction L with
  | nil =>
    intro u hu _
    induction u with
    | nil => rfl
    | cons c u ih =>
      have hc : c ≠ '-' := hu c (by simp)
      have ih2 := ih (fun d hd => hu d (by simp [hd]))
      simp only [joinHyphen, List.map_nil, List.flatten_nil, List.append_nil] at ih2 ⊢
      simp [splitOnHyphen, hc, ih2]
  | cons w L ihL =>
    intro u hu hL
    induction u with
    | nil =>
      have h1 := ihL w (hL w (by simp)) (fun w2 hw2 => hL w2 (by simp [hw2]))
      simp only [joinHyphen] at h1
      simp [joinHyphen, splitOnHyphen, h1]
    | cons c u ih =>
      have hc : c ≠ '-' := hu c (by simp)
      have ih2 := ih (fun d hd => hu d (by simp [hd]))
      simp only [joinHyphen] at ih2
      have hstep : splitOnHyphen (c :: (u ++ (List.map (fun w => '-' :: w) (w :: L)).flatten))
          = (c :: u) :: w :: L := by
        rw [splitOnHyphen, if_neg hc, ih2]
      simpa [joinHyphen] using hstep

theorem joinHyphen_splitOnHyphen (x : List Char) :
    ∃ u L, splitOnHyphen x = u :: L ∧ x = joinHyphen u L := by
  induction x with
  | nil => exact ⟨[], [], rfl, rfl⟩
  | cons c x ih =>
    obtain ⟨u, L, hs, hx⟩ := ih
    by_cases hc : c = '-'
    · refine ⟨[], u :: L, by simp [splitOnHyphen, hc, hs], ?_⟩
      simp only [joinHyphen] at hx
      simp [joinHyphen, hc, ← hx]
    · refine ⟨c :: u, L, by simp [splitOnHyphen, hc, hs], ?_⟩
      simp only [joinHyphen] at hx
      simp [joinHyphen, ← hx]

theorem isSegment_no_hyphen (u : List Char) (h : isSegment u = true) : ∀ c ∈ u, c ≠ '-' := by
  intro c hc hEq
  have hmem := ((isSegment_iff u).1 h).2 c hc
  rw [hEq] at hmem
  revert hmem
  decide

/-- What `[a-z0-9]+(?:-[a-z0-9]+)+` matches: the strings of the id grammar with at
least two segments. -/
theorem idTail_rmatch_eq (s : String) :
    (reSegment * rePlus (char '-' * reSegment)).rmatch s.data = idGrammarHyphenated s := by
  rw [Bool.eq_iff_iff, idTail_rmatch_iff]
  simp only [idGrammarHyphenated, idGrammar, Bool.and_eq_true, decide_eq_true_eq,
    List.all_eq_true]
  constructor
  · rintro ⟨u, v, L, hx, hu, hv, hL⟩
    have hsplit : splitOnHyphen s.data = u :: v :: L := by
      rw [hx]
      apply splitOnHyphen_joinHyphen
      · exact isSegment_no_hyphen u hu
      · intro w hw
        rcases List.mem_cons.1 hw with rfl | hw
        · exact isSegment_no_hyphen _ hv
        · exact isSegment_no_hyphen w (hL w hw)
    rw [hsplit]
    refine ⟨?_, by simp⟩
    intro w hw
    rcases List.mem_cons.1 hw with rfl | hw
    · exact hu
    rcases List.mem_cons.1 hw with rfl | hw
    · exact hv
    · exact hL w hw
  · rintro ⟨hall, hlen⟩
    obtain ⟨u, L, hs, hx⟩ := joinHyphen_splitOnHyphen s.data
    rw [hs] at hall hlen
    cases L with
    | nil => simp at hlen
    | cons v L =>
      exact ⟨u, v, L, hx, hall u (by simp), hall v (by simp),
        fun w hw => hall w (by simp [hw])⟩

end Regex

/-! ### The dispatcher of the standard-library front-end -/

section Dispatcher

variable {σ : Type}

theorem recipeReWithID_matchString (s : String) :
    Standardlib.RecipeReWithID.MatchString ("/recipes/" ++ s) = idGrammarHyphenated s := by
  have hdata : ("/recipes/" ++ s).data = "/recipes/".data ++ s.data := String.data_append _ _
  simp only [Regexp.MatchString, Standardlib.RecipeReWithID, hdata, dropLit_append]
  exact idTail_rmatch_eq s

theorem recipeReWithID_findStringSubmatch (s : String) :
    Standardlib.RecipeReWithID.FindStringSubmatch ("/recipes/" ++ s)
      = if idGrammarHyphenated s = true then ["/recipes/" ++ s, s] else [] := by
  have hdata : ("/recipes/" ++ s).data = "/recipes/".data ++ s.data := String.data_append _ _
  simp only [Regexp.FindStringSubmatch, Standardlib.RecipeReWithID, hdata, dropLit_append]
  rw [idTail_rmatch_eq s]
  simp

theorem recipeRe_findStringSubmatch (p : String) :
    Standardlib.RecipeRe.FindStringSubmatch p = [] ∨
      Standardlib.RecipeRe.FindStringSubmatch p = [p] := by
  simp only [Regexp.FindStringSubmatch, Standardlib.RecipeRe]
  split
  · split
    · right; simp
    · left; rfl
  · left; rfl

theorem slashes_rmatch (x : List Char)
    (h : (RegularExpression.char '/').star.rmatch x = true) : ∀ c ∈ x, c = '/' := by
  rw [RegularExpression.star_rmatch_iff] at h
  obtain ⟨S, rfl, hS⟩ := h
  intro c hc
  rw [List.mem_flatten] at hc
  obtain ⟨t, ht, hct⟩ := hc
  have htc := (RegularExpression.char_rmatch_iff _ _).1 (hS t ht).2
  rw [htc] at hct
  simpa using hct

theorem recipeRe_matchString (s : String)
    (h : Standardlib.RecipeRe.MatchString ("/recipes/" ++ s) = true) :
    ∀ c ∈ s.data, c = '/' := by
  have hdata : ("/recipes/" ++ s).data = "/recipes".data ++ ('/' :: s.data) := by
    rw [String.data_append]; rfl
  simp only [Regexp.MatchString, Standardlib.RecipeRe, hdata, dropLit_append] at h
  intro c hc
  exact slashes_rmatch _ h c (by simp [hc])

theorem hyphenated_head (s : String) (h : idGrammarHyphenated s = true) :
    ∃ c ∈ s.data, c ≠ '/' := by
  simp only [idGrammarHyphenated, idGrammar, Bool.and_eq_true, List.all_eq_true] at h
  obtain ⟨u, L, hs, hx⟩ := joinHyphen_splitOnHyphen s.data
  have hu : isSegment u = true := h.1 u (by simp [hs])
  obtain ⟨hne, hall⟩ := (isSegment_iff u).1 hu
  obtain ⟨c, rest, rfl⟩ := List.exists_cons_of_ne_nil hne
  refine ⟨c, by simp [hx, joinHyphen], ?_⟩
  intro hEq
  have hmem := hall c (by simp)
  rw [hEq] at hmem
  revert hmem
  decide

/-- The method `UpdateRecipe` of the standard-library front-end never reaches the
store: `RecipeRe` has no capture group, so fewer than two submatches are found
whatever the path, and the handler answers 500. -/
theorem updateRecipe_never_calls_store (env : Env) (h : recipeStore σ) (r : Request)
    (s : HState σ ResponseWriter) :
    Standardlib.UpdateRecipe env h r s = Standardlib.InternalServerErrorHandler s := by
  simp only [Standardlib.UpdateRecipe]
  rcases recipeRe_findStringSubmatch r.Path with hf | hf <;> simp [hf]

/-- The ids the dispatcher does recognise: for a string `s` of the id grammar with at
least two segments, `RecipeReWithID` matches `/recipes/s`, its capture group is
`s`, and a GET request with that path makes the single store call `Get(s)`. -/
theorem get_with_hyphenated_id_calls_get (env : Env) (h : recipeStore σ) (r : Request)
    (st : σ) (s : String) (hm : r.Method = MethodGet) (hpath : r.Path = "/recipes/" ++ s)
    (hs : idGrammarHyphenated s = true) :
    Standardlib.RecipeReWithID.MatchString r.Path = true
    ∧ Standardlib.RecipeReWithID.FindStringSubmatch r.Path = [r.Path, s]
    ∧ (Standardlib.ServeHTTP env h r (HState.init st ResponseWriter.fresh)).calls
        = [StoreCall.Get s] := by
  have hId : Standardlib.RecipeReWithID.MatchString r.Path = true := by
    rw [hpath, recipeReWithID_matchString, hs]
  have hFind : Standardlib.RecipeReWithID.FindStringSubmatch r.Path = [r.Path, s] := by
    rw [hpath, recipeReWithID_findStringSubmatch, if_pos hs]
  have hRe : Standardlib.RecipeRe.MatchString r.Path = false := by
    rw [hpath]
    cases hcase : Standardlib.RecipeRe.MatchString ("/recipes/" ++ s) with
    | false => rfl
    | true =>
      obtain ⟨c, hc, hne⟩ := hyphenated_head s hs
      exact absurd (recipeRe_matchString s hcase c hc) hne
  refine ⟨hId, hFind, ?_⟩
  have hget : Standardlib.ServeHTTP env h r (HState.init st ResponseWriter.fresh)
      = Standardlib.GetRecipe env h r (HState.init st ResponseWriter.fresh) := by
    simp [Standardlib.ServeHTTP, hm, hRe, hId, MethodGet, MethodPost]
  rw [hget]
  simp only [Standardlib.GetRecipe, hFind]
  split
  · split <;>
      simp [Standardlib.NotFoundHandler, Standardlib.InternalServerErrorHandler,
        HState.respond, recipeStore.callGet, HState.init]
  · split <;>
      simp [Standardlib.InternalServerErrorHandler, HState.respond, recipeStore.callGet,
        HState.init]

/-- Witness: GET `/recipes/tomato-soup`. -/
theorem get_with_hyphenated_id_calls_get_witness :
    idGrammarHyphenated "tomato-soup" = true
    ∧ Standardlib.RecipeReWithID.MatchString
        (demoRequest "GET" "/recipes/tomato-soup" "" "").Path = true
    ∧ Standardlib.RecipeReWithID.FindStringSubmatch
        (demoRequest "GET" "/recipes/tomato-soup" "" "").Path
        = [(demoRequest "GET" "/recipes/tomato-soup" "" "").Path, "tomato-soup"]
    ∧ (Standardlib.ServeHTTP demoEnv (constStore none)
          (demoRequest "GET" "/recipes/tomato-soup" "" "")
          (HState.init () ResponseWriter.fresh)).calls = [StoreCall.Get "tomato-soup"] :=
  ⟨by decide, get_with_hyphenated_id_calls_get demoEnv (constStore none)
    (demoRequest "GET" "/recipes/tomato-soup" "" "") () "tomato-soup" rfl (by decide)
    (by decide)⟩

/-- C5: for every method and every path `/recipes/s` where `s` is non-empty and
does not satisfy the id grammar, `ServeHTTP` calls none of `Store.Get`,
`Store.Update`, `Store.Remove`. -/
theorem malformed_id_never_reaches_store_lookup (env : Env) (h : recipeStore σ)
    (r : Request) (st : σ) (s : String) (hpath : r.Path = "/recipes/" ++ s)
    (_hne : s ≠ "") (hbad : idGrammar s = false) :
    (∀ id, StoreCall.Get id ∉
        (Standardlib.ServeHTTP env h r (HState.init st ResponseWriter.fresh)).calls)
    ∧ (∀ id recipe, StoreCall.Update id recipe ∉
        (Standardlib.ServeHTTP env h r (HState.init st ResponseWriter.fresh)).calls)
    ∧ (∀ id, StoreCall.Remove id ∉
        (Standardlib.ServeHTTP env h r (HState.init st ResponseWriter.fresh)).calls) := by
  have hhyp : idGrammarHyphenated s = false := by simp [idGrammarHyphenated, hbad]
  have hId : Standardlib.RecipeReWithID.MatchString r.Path = false := by
    rw [hpath, recipeReWithID_matchString, hhyp]
  have hFind : Standardlib.RecipeReWithID.FindStringSubmatch r.Path = [] := by
    rw [hpath, recipeReWithID_findStringSubmatch, hhyp]; simp
  have hcalls :
      (Standardlib.ServeHTTP env h r (HState.init st ResponseWriter.fresh)).calls = []
      ∨ (Standardlib.ServeHTTP env h r (HState.init st ResponseWriter.fresh)).calls
          = [StoreCall.List]
      ∨ ∃ name recipe,
          (Standardlib.ServeHTTP env h r (HState.init st ResponseWriter.fresh)).calls
            = [StoreCall.Add name recipe] := by
    unfold Standardlib.ServeHTTP
    simp only [hId]
    split
    · -- CreateRecipe
      simp only [Standardlib.CreateRecipe]
      split
      · left; simp [Standardlib.InternalServerErrorHandler, HState.respond, HState.init]
      · right; right
        split <;>
          simp [Standardlib.InternalServerErrorHandler, HState.respond, HState.init,
            recipeStore.callAdd]
    · split
      · -- ListRecipes
        right; left
        simp only [Standardlib.ListRecipes]
        split <;>
          simp [Standardlib.InternalServerErrorHandler, HState.respond, HState.init,
            recipeStore.callList]
      · split
        · rename_i hc
          simp at hc
        · split
          · -- UpdateRecipe
            left
            simp only [Standardlib.UpdateRecipe]
            rcases recipeRe_findStringSubmatch r.Path with hf | hf <;>
              simp [hf, Standardlib.InternalServerErrorHandler, HState.respond, HState.init]
          · split
            · -- DeleteRecipe
              left
              simp [Standardlib.DeleteRecipe, hFind, Standardlib.InternalServerErrorHandler,
                HState.respond, HState.init]
            · left; rfl
  rcases hcalls with hc | hc | ⟨name, recipe, hc⟩ <;> simp [hc]

/-- Witness of C5: GET `/recipes/Invalid_ID!`. -/
theorem malformed_id_never_reaches_store_lookup_witness :
    (demoRequest "GET" "/recipes/Invalid_ID!" "" "").Path = "/recipes/" ++ "Invalid_ID!"
    ∧ "Invalid_ID!" ≠ ""
    ∧ idGrammar "Invalid_ID!" = false
    ∧ ((∀ id, StoreCall.Get id ∉
          (Standardlib.ServeHTTP demoEnv (constStore none)
            (demoRequest "GET" "/recipes/Invalid_ID!" "" "")
            (HState.init () ResponseWriter.fresh)).calls)
      ∧ (∀ id recipe, StoreCall.Update id recipe ∉
          (Standardlib.ServeHTTP demoEnv (constStore none)
            (demoRequest "GET" "/recipes/Invalid_ID!" "" "")
            (HState.init () ResponseWriter.fresh)).calls)
      ∧ (∀ id, StoreCall.Remove id ∉
          (Standardlib.ServeHTTP demoEnv (constStore none)
            (demoRequest "GET" "/recipes/Invalid_ID!" "" "")
            (HState.init () ResponseWriter.fresh)).calls)) :=
  ⟨by decide, by decide, by decide,
    malformed_id_never_reaches_store_lookup demoEnv (constStore none)
      (demoRequest "GET" "/recipes/Invalid_ID!" "" "") () "Invalid_ID!"
      (by decide) (by decide) (by decide)⟩

end Dispatcher

section Handlers

variable {σ : Type}

/-- C4: in each of the three front-ends, when the body decodes to a recipe `recipe`,
`CreateRecipe` invokes the store exactly once, as
`Add(slug.Make(recipe.Name), recipe)`: the call log is that single call and the
store is left in the state that `Add` returns; and when that `Add` returns no
error the status is 200 (standardlib, gin) or 201 (gorilla). -/
theorem create_calls_add_once (env : Env) (h : recipeStore σ) (r : Request) (st : σ)
    (recipe : Recipe) (hdec : env.decode r.Body = .ok recipe) :
    ((Standardlib.CreateRecipe env h r (HState.init st ResponseWriter.fresh)).calls
        = [StoreCall.Add (env.slugMake recipe.Name) recipe]
      ∧ (Standardlib.CreateRecipe env h r (HState.init st ResponseWriter.fresh)).store
        = (h.Add (env.slugMake recipe.Name) recipe st).2
      ∧ ((h.Add (env.slugMake recipe.Name) recipe st).1 = none →
          (Standardlib.CreateRecipe env h r (HState.init st ResponseWriter.fresh)).w.status
            = some StatusOK))
    ∧ ((Gorilla.CreateRecipe env h r (HState.init st ResponseWriter.fresh)).calls
        = [StoreCall.Add (env.slugMake recipe.Name) recipe]
      ∧ (Gorilla.CreateRecipe env h r (HState.init st ResponseWriter.fresh)).store
        = (h.Add (env.slugMake recipe.Name) recipe st).2
      ∧ ((h.Add (env.slugMake recipe.Name) recipe st).1 = none →
          (Gorilla.CreateRecipe env h r (HState.init st ResponseWriter.fresh)).w.status
            = some StatusCreated))
    ∧ ((Gin.CreateRecipe env h r (HState.init st Context.fresh)).calls
        = [StoreCall.Add (env.slugMake recipe.Name) recipe]
      ∧ (Gin.CreateRecipe env h r (HState.init st Context.fresh)).store
        = (h.Add (env.slugMake recipe.Name) recipe st).2
      ∧ ((h.Add (env.slugMake recipe.Name) recipe st).1 = none →
          (Gin.CreateRecipe env h r (HState.init st Context.fresh)).w.status = StatusOK)) := by
  refine ⟨⟨?_, ?_, ?_⟩, ⟨?_, ?_, ?_⟩, ⟨?_, ?_, ?_⟩⟩
  · simp only [Standardlib.CreateRecipe, hdec]
    split <;>
      simp [Standardlib.InternalServerErrorHandler, HState.respond, recipeStore.callAdd,
        HState.init]
  · simp only [Standardlib.CreateRecipe, hdec]
    split <;>
      simp [Standardlib.InternalServerErrorHandler, HState.respond, recipeStore.callAdd,
        HState.init]
  · intro hadd
    simp [Standardlib.CreateRecipe, hdec, recipeStore.callAdd, HState.init, hadd,
      HState.respond, ResponseWriter.WriteHeader, ResponseWriter.fresh]
  · simp only [Gorilla.CreateRecipe, hdec]
    split <;>
      simp [Gorilla.InternalServerErrorHandler, HState.respond, recipeStore.callAdd,
        HState.init]
  · simp only [Gorilla.CreateRecipe, hdec]
    split <;>
      simp [Gorilla.InternalServerErrorHandler, HState.respond, recipeStore.callAdd,
        HState.init]
  · intro hadd
    simp [Gorilla.CreateRecipe, hdec, recipeStore.callAdd, HState.init, hadd,
      HState.respond, ResponseWriter.WriteHeader, ResponseWriter.fresh]
  · simp only [Gin.CreateRecipe, hdec]
    split <;> simp [HState.respond, recipeStore.callAdd, HState.init]
  · simp only [Gin.CreateRecipe, hdec]
    split <;> simp [HState.respond, recipeStore.callAdd, HState.init]
  · intro hadd
    simp [Gin.CreateRecipe, hdec, recipeStore.callAdd, HState.init, hadd,
      HState.respond, Context.JSON, Context.fresh]

/-- Witness of C4: the example request of the specification, POST `/recipes` with the
JSON text of the Tomato Soup recipe, on a store that records what it is given:
the store ends up holding the recipe under the key `tomato-soup`. -/
theorem create_calls_add_once_witness :
    demoEnv.decode (demoRequest "POST" "/recipes" tomatoSoupBody "").Body = .ok tomatoSoup
    ∧ demoEnv.slugMake tomatoSoup.Name = "tomato-soup"
    ∧ (recordingStore.Add "tomato-soup" tomatoSoup []).2 = [("tomato-soup", tomatoSoup)]
    ∧ ((Standardlib.CreateRecipe demoEnv recordingStore
          (demoRequest "POST" "/recipes" tomatoSoupBody "")
          (HState.init [] ResponseWriter.fresh)).calls
        = [StoreCall.Add (demoEnv.slugMake tomatoSoup.Name) tomatoSoup]
      ∧ (Standardlib.CreateRecipe demoEnv recordingStore
          (demoRequest "POST" "/recipes" tomatoSoupBody "")
          (HState.init [] ResponseWriter.fresh)).store
        = (recordingStore.Add (demoEnv.slugMake tomatoSoup.Name) tomatoSoup []).2
      ∧ ((recordingStore.Add (demoEnv.slugMake tomatoSoup.Name) tomatoSoup []).1 = none →
          (Standardlib.CreateRecipe demoEnv recordingStore
            (demoRequest "POST" "/recipes" tomatoSoupBody "")
            (HState.init [] ResponseWriter.fresh)).w.status = some StatusOK))
    ∧ ((Gorilla.CreateRecipe demoEnv recordingStore
          (demoRequest "POST" "/recipes" tomatoSoupBody "")
          (HState.init [] ResponseWriter.fresh)).calls
        = [StoreCall.Add (demoEnv.slugMake tomatoSoup.Name) tomatoSoup]
      ∧ (Gorilla.CreateRecipe demoEnv recordingStore
          (demoRequest "POST" "/recipes" tomatoSoupBody "")
          (HState.init [] ResponseWriter.fresh)).store
        = (recordingStore.Add (demoEnv.slugMake tomatoSoup.Name) tomatoSoup []).2
      ∧ ((recordingStore.Add (demoEnv.slugMake tomatoSoup.Name) tomatoSoup []).1 = none →
          (Gorilla.CreateRecipe demoEnv recordingStore
            (demoRequest "POST" "/recipes" tomatoSoupBody "")
            (HState.init [] ResponseWriter.fresh)).w.status = some StatusCreated))
    ∧ ((Gin.CreateRecipe demoEnv recordingStore
          (demoRequest "POST" "/recipes" tomatoSoupBody "")
          (HState.init [] Context.fresh)).calls
        = [StoreCall.Add (demoEnv.slugMake tomatoSoup.Name) tomatoSoup]
      ∧ (Gin.CreateRecipe demoEnv recordingStore
          (demoRequest "POST" "/recipes" tomatoSoupBody "")
          (HState.init [] Context.fresh)).store
        = (recordingStore.Add (demoEnv.slugMake tomatoSoup.Name) tomatoSoup []).2
      ∧ ((recordingStore.Add (demoEnv.slugMake tomatoSoup.Name) tomatoSoup []).1 = none →
          (Gin.CreateRecipe demoEnv recordingStore
            (demoRequest "POST" "/recipes" tomatoSoupBody "")
            (HState.init [] Context.fresh)).w.status = StatusOK)) :=
  ⟨rfl, by decide, rfl,
    create_calls_add_once demoEnv recordingStore
      (demoRequest "POST" "/recipes" tomatoSoupBody "") [] tomatoSoup rfl⟩

/-- C6: in each of the three front-ends, when the body fails to decode,
`CreateRecipe` and `UpdateRecipe` return without a store call: the call log
and the store are as they were. -/
theorem decode_failure_skips_store (env : Env) (h : recipeStore σ) (r : Request)
    (s : HState σ ResponseWriter) (g : HState σ Context) (err : Error)
    (hdec : env.decode r.Body = .error err) :
    ((Standardlib.CreateRecipe env h r s).calls = s.calls
      ∧ (Standardlib.CreateRecipe env h r s).store = s.store)
    ∧ ((Standardlib.UpdateRecipe env h r s).calls = s.calls
      ∧ (Standardlib.UpdateRecipe env h r s).store = s.store)
    ∧ ((Gorilla.CreateRecipe env h r s).calls = s.calls
      ∧ (Gorilla.CreateRecipe env h r s).store = s.store)
    ∧ ((Gorilla.UpdateRecipe env h r s).calls = s.calls
      ∧ (Gorilla.UpdateRecipe env h r s).store = s.store)
    ∧ ((Gin.CreateRecipe env h r g).calls = g.calls
      ∧ (Gin.CreateRecipe env h r g).store = g.store)
    ∧ ((Gin.UpdateRecipe env h r g).calls = g.calls
      ∧ (Gin.UpdateRecipe env h r g).store = g.store) := by
  refine ⟨?_, ?_, ?_, ?_, ?_, ?_⟩
  · simp [Standardlib.CreateRecipe, hdec, Standardlib.InternalServerErrorHandler,
      HState.respond]
  · simp only [Standardlib.UpdateRecipe, hdec]
    split <;> simp [Standardlib.InternalServerErrorHandler, HState.respond]
  · simp [Gorilla.CreateRecipe, hdec, Gorilla.InternalServerErrorHandler, HState.respond]
  · simp [Gorilla.UpdateRecipe, hdec, Gorilla.InternalServerErrorHandler, HState.respond]
  · simp [Gin.CreateRecipe, hdec, HState.respond]
  · simp [Gin.UpdateRecipe, hdec, HState.respond]

/-- Witness of C6: the empty body, which does not decode. -/
theorem decode_failure_skips_store_witness :
    demoEnv.decode (demoRequest "POST" "/recipes" "" "tomato-soup").Body
        = .error (Error.Other "EOF")
    ∧ (((Standardlib.CreateRecipe demoEnv (constStore none)
            (demoRequest "POST" "/recipes" "" "tomato-soup")
            (HState.init () ResponseWriter.fresh)).calls = []
        ∧ (Standardlib.CreateRecipe demoEnv (constStore none)
            (demoRequest "POST" "/recipes" "" "tomato-soup")
            (HState.init () ResponseWriter.fresh)).store = ())
      ∧ ((Standardlib.UpdateRecipe demoEnv (constStore none)
            (demoRequest "POST" "/recipes" "" "tomato-soup")
            (HState.init () ResponseWriter.fresh)).calls = []
        ∧ (Standardlib.UpdateRecipe demoEnv (constStore none)
            (demoRequest "POST" "/recipes" "" "tomato-soup")
            (HState.init () ResponseWriter.fresh)).store = ())
      ∧ ((Gorilla.CreateRecipe demoEnv (constStore none)
            (demoRequest "POST" "/recipes" "" "tomato-soup")
            (HState.init () ResponseWriter.fresh)).calls = []
        ∧ (Gorilla.CreateRecipe demoEnv (constStore none)
            (demoRequest "POST" "/recipes" "" "tomato-soup")
            (HState.init () ResponseWriter.fresh)).store = ())
      ∧ ((Gorilla.UpdateRecipe demoEnv (constStore none)
            (demoRequest "POST" "/recipes" "" "tomato-soup")
            (HState.init () ResponseWriter.fresh)).calls = []
        ∧ (Gorilla.UpdateRecipe demoEnv (constStore none)
            (demoRequest "POST" "/recipes" "" "tomato-soup")
            (HState.init () ResponseWriter.fresh)).store = ())
      ∧ ((Gin.CreateRecipe demoEnv (constStore none)
            (demoRequest "POST" "/recipes" "" "tomato-soup")
            (HState.init () Context.fresh)).calls = []
        ∧ (Gin.CreateRecipe demoEnv (constStore none)
            (demoRequest "POST" "/recipes" "" "tomato-soup")
            (HState.init () Context.fresh)).store = ())
      ∧ ((Gin.UpdateRecipe demoEnv (constStore none)
            (demoRequest "POST" "/recipes" "" "tomato-soup")
            (HState.init () Context.fresh)).calls = []
        ∧ (Gin.UpdateRecipe demoEnv (constStore none)
            (demoRequest "POST" "/recipes" "" "tomato-soup")
            (HState.init () Context.fresh)).store = ())) :=
  ⟨rfl, decode_failure_skips_store demoEnv (constStore none)
    (demoRequest "POST" "/recipes" "" "tomato-soup")
    (HState.init () ResponseWriter.fresh) (HState.init () Context.fresh)
    (Error.Other "EOF") rfl⟩

/-- C7 fails on the code: a body that is no JSON text fails to decode, and
`CreateRecipe` of the standard-library front-end and `CreateRecipe` and
`UpdateRecipe` of the gorilla front-end answer it with 500, not 400, while the
handlers of the same names in the gin front-end answer it with 400. -/
theorem decode_failure_status_500 :
    demoEnv.decode (demoRequest "POST" "/recipes" "not json" "").Body
        = .error (Error.Other "invalid character")
    ∧ (Standardlib.CreateRecipe demoEnv recordingStore
          (demoRequest "POST" "/recipes" "not json" "")
          (HState.init [] ResponseWriter.fresh)).w.status = some StatusInternalServerError
    ∧ (Gorilla.CreateRecipe demoEnv recordingStore
          (demoRequest "POST" "/recipes/" "not json" "")
          (HState.init [] ResponseWriter.fresh)).w.status = some StatusInternalServerError
    ∧ (Gorilla.UpdateRecipe demoEnv recordingStore
          (demoRequest "PUT" "/recipes/tomato-soup" "not json" "tomato-soup")
          (HState.init [] ResponseWriter.fresh)).w.status = some StatusInternalServerError
    ∧ (Gin.CreateRecipe demoEnv recordingStore
          (demoRequest "POST" "/recipes" "not json" "")
          (HState.init [] Context.fresh)).w.status = StatusBadRequest
    ∧ (Gin.UpdateRecipe demoEnv recordingStore
          (demoRequest "PUT" "/recipes/tomato-soup" "not json" "tomato-soup")
          (HState.init [] Context.fresh)).w.status = StatusBadRequest := by
  refine ⟨rfl, ?_, ?_, ?_, ?_, ?_⟩ <;> decide

/-- C8 fails on the code: when `Remove` returns `NotFoundErr`, `DeleteRecipe` of the
gorilla and of the standard-library front-end answers 500, not 404. -/
theorem delete_not_found_status_500 :
    ((constStore (some Error.NotFoundErr)).Remove "does-not-exist" ()).1
        = some Error.NotFoundErr
    ∧ (Gorilla.DeleteRecipe (constStore (some Error.NotFoundErr))
          (demoRequest "DELETE" "/recipes/does-not-exist" "" "does-not-exist")
          (HState.init () ResponseWriter.fresh)).calls = [StoreCall.Remove "does-not-exist"]
    ∧ (Gorilla.DeleteRecipe (constStore (some Error.NotFoundErr))
          (demoRequest "DELETE" "/recipes/does-not-exist" "" "does-not-exist")
          (HState.init () ResponseWriter.fresh)).w.status = some StatusInternalServerError
    ∧ (Standardlib.DeleteRecipe (constStore (some Error.NotFoundErr))
          (demoRequest "DELETE" "/recipes/does-not-exist" "" "does-not-exist")
          (HState.init () ResponseWriter.fresh)).calls = [StoreCall.Remove "does-not-exist"]
    ∧ (Standardlib.DeleteRecipe (constStore (some Error.NotFoundErr))
          (demoRequest "DELETE" "/recipes/does-not-exist" "" "does-not-exist")
          (HState.init () ResponseWriter.fresh)).w.status = some StatusInternalServerError := by
  refine ⟨rfl, ?_, ?_, ?_, ?_⟩ <;> decide

/-- C9 fails on the code: when the store returns an error other than `NotFoundErr`,
`GetRecipe` of the gin front-end answers 404, and `ListRecipes` of the gorilla
and of the standard-library front-end answers 200. -/
theorem other_store_error_status_not_500 :
    ((constStore (some (Error.Other "boom"))).Get "tomato-soup" ()).1.2
        = some (Error.Other "boom")
    ∧ (Gin.GetRecipe (constStore (some (Error.Other "boom")))
          (demoRequest "GET" "/recipes/tomato-soup" "" "tomato-soup")
          (HState.init () Context.fresh)).calls = [StoreCall.Get "tomato-soup"]
    ∧ (Gin.GetRecipe (constStore (some (Error.Other "boom")))
          (demoRequest "GET" "/recipes/tomato-soup" "" "tomato-soup")
          (HState.init () Context.fresh)).w.status = StatusNotFound
    ∧ ((constStore (some (Error.Other "boom"))).List ()).1.2 = some (Error.Other "boom")
    ∧ (Gorilla.ListRecipes demoEnv (constStore (some (Error.Other "boom")))
          (demoRequest "GET" "/recipes/" "" "")
          (HState.init () ResponseWriter.fresh)).calls = [StoreCall.List]
    ∧ (Gorilla.ListRecipes demoEnv (constStore (some (Error.Other "boom")))
          (demoRequest "GET" "/recipes/" "" "")
          (HState.init () ResponseWriter.fresh)).w.status = some StatusOK
    ∧ (Standardlib.ListRecipes demoEnv (constStore (some (Error.Other "boom")))
          (demoRequest "GET" "/recipes" "" "")
          (HState.init () ResponseWriter.fresh)).calls = [StoreCall.List]
    ∧ (Standardlib.ListRecipes demoEnv (constStore (some (Error.Other "boom")))
          (demoRequest "GET" "/recipes" "" "")
          (HState.init () ResponseWriter.fresh)).w.status = some StatusOK := by
  refine ⟨rfl, ?_, ?_, rfl, ?_, ?_, ?_, ?_⟩ <;> decide

/-- C10 fails on the code: when the store returns an error, `CreateRecipe`,
`ListRecipes` and `GetRecipe` of the gin front-end render two JSON bodies, the
error and then the success payload. -/
theorem gin_error_renders_two_bodies :
    (Gin.CreateRecipe demoEnv (constStore (some (Error.Other "boom")))
          (demoRequest "POST" "/recipes" tomatoSoupBody "")
          (HState.init () Context.fresh)).w.rendered
        = [(StatusInternalServerError, Payload.error (Error.Other "boom")),
           (StatusOK, Payload.success)]
    ∧ (Gin.ListRecipes (constStore (some (Error.Other "boom")))
          (demoRequest "GET" "/recipes" "" "")
          (HState.init () Context.fresh)).w.rendered
        = [(StatusInternalServerError, Payload.error (Error.Other "boom")),
           (StatusOK, Payload.recipes [])]
    ∧ (Gin.GetRecipe (constStore (some Error.NotFoundErr))
          (demoRequest "GET" "/recipes/does-not-exist" "" "does-not-exist")
          (HState.init () Context.fresh)).w.rendered
        = [(StatusNotFound, Payload.error Error.NotFoundErr),
           (StatusOK, Payload.recipe { Name := "", Ingredients := [] })] := by
  refine ⟨?_, ?_, ?_⟩ <;> decide

/-- C1 fails on the code: `tomato-soup` satisfies the id grammar, yet a PUT request
with path `/recipes/tomato-soup` is taken by no case of the dispatcher: the
state comes back as it was, with no store call and nothing written. -/
theorem put_with_id_is_not_dispatched (env : Env) (h : recipeStore σ) (body : String)
    (vars : String → String) (s : HState σ ResponseWriter) :
    idGrammar "tomato-soup" = true
    ∧ Standardlib.ServeHTTP env h
        { Method := "PUT", Path := "/recipes/tomato-soup", Body := body, Vars := vars } s
      = s := by
  have hRe : Standardlib.RecipeRe.MatchString "/recipes/tomato-soup" = false := by decide
  refine ⟨by decide, ?_⟩
  simp [Standardlib.ServeHTTP, hRe, MethodGet, MethodPost]

/-- C2 fails on the code: `tomato-soup` satisfies the id grammar, yet a DELETE
request with path `/recipes/tomato-soup` is taken by no case of the dispatcher:
the state comes back as it was, with no store call and nothing written. -/
theorem delete_with_id_is_not_dispatched (env : Env) (h : recipeStore σ) (body : String)
    (vars : String → String) (s : HState σ ResponseWriter) :
    idGrammar "tomato-soup" = true
    ∧ Standardlib.ServeHTTP env h
        { Method := "DELETE", Path := "/recipes/tomato-soup", Body := body, Vars := vars } s
      = s := by
  have hRe : Standardlib.RecipeRe.MatchString "/recipes/tomato-soup" = false := by decide
  refine ⟨by decide, ?_⟩
  simp [Standardlib.ServeHTTP, hRe, MethodGet, MethodPost]

/-- C3 fails on the code: `soup` satisfies the id grammar (one segment), yet
`RecipeReWithID` does not match `/recipes/soup`, and a GET request with that
path is taken by no case of the dispatcher, so `Store.Get` is not called. -/
theorem single_segment_id_is_not_recognised (env : Env) (h : recipeStore σ) (body : String)
    (vars : String → String) (s : HState σ ResponseWriter) :
    idGrammar "soup" = true
    ∧ Standardlib.RecipeReWithID.MatchString "/recipes/soup" = false
    ∧ Standardlib.ServeHTTP env h
        { Method := "GET", Path := "/recipes/soup", Body := body, Vars := vars } s
      = s := by
  have hRe : Standardlib.RecipeRe.MatchString "/recipes/soup" = false := by decide
  have hId : Standardlib.RecipeReWithID.MatchString "/recipes/soup" = false := by decide
  refine ⟨by decide, hId, ?_⟩
  simp [Standardlib.ServeHTTP, hRe, hId, MethodPost, MethodPut, MethodDelete]

end Handlers
